import Mathlib

/-!
# Verification of the seeded name-art renderer (`script.js`)

A shallow embedding of the deterministic generative-art pipeline of the
repository: the seeded xorshift RNG (`rngFromSeed`), the uniform selector
(`pick`), the four compositing layers (`paintBackground`, `renderName`,
`sprinkleSparks`, `drawScanlines`), the orchestrator (`forgeNameArt`) with
its stored last-used (name, seed) pair, the download file-name derivation
(`handleDownload`) and the resize handler (`handleResize`).

JavaScript numbers are modelled as rationals (`ℚ`); the 32-bit integer
arithmetic inside the RNG is modelled exactly on `ℕ` bit patterns with
explicit reduction modulo `2 ^ 32`.  Canvas draw calls are reified as a
list of `Cmd` values recording every parameter the source computes, so a
render is a pure function of (name, seed, device pixel ratio).
-/

namespace NameArt

/-- JavaScript string whitespace for `String.prototype.trim` (the ASCII part,
which is all the repository ever feeds it). -/
def jsWhitespace (c : Char) : Bool :=
  c = ' ' || c = '\t' || c = '\n' || c = '\r' || c = '\x0b' || c = '\x0c'

/-- `String.prototype.trim`: strip leading and trailing whitespace. -/
def jsTrim (s : String) : String :=
  String.mk (((s.toList.dropWhile jsWhitespace).reverse.dropWhile jsWhitespace).reverse)

/-- `Math.floor` on a JavaScript number modelled as a rational. -/
def jsFloor (q : ℚ) : ℤ := ⌊q⌋

/-- `Math.round` on a JavaScript number (round half toward positive infinity). -/
def jsRound (q : ℚ) : ℤ := ⌊q + 1 / 2⌋

/-- `const clamp = (value, min, max) => Math.max(min, Math.min(max, value));`
(script.js line 526). -/
def clamp (value lo hi : ℚ) : ℚ := max lo (min hi value)

/-! ## Seeded RNG (`rngFromSeed`, script.js lines 528–536)

The closure's state `t` is a 32-bit signed integer; we carry its unsigned
bit pattern `u ∈ [0, 2^32)`.  `t ^= t << 13` xors the pattern with the
pattern shifted left 13 (mod `2^32`), `t ^= t >>> 17` xors with the logical
right shift, `t ^= t << 5` likewise. -/

/-- The signed 32-bit integer a bit pattern represents (JavaScript `ToInt32`). -/
def toSigned (u : ℕ) : ℤ := if u < 2 ^ 31 then (u : ℤ) else (u : ℤ) - 2 ^ 32

/-- One xorshift update of the closure state
(`t ^= t << 13; t ^= t >>> 17; t ^= t << 5;`). -/
def xorshiftStep (u : ℕ) : ℕ :=
  let a := Nat.xor u ((u * 2 ^ 13) % 2 ^ 32)
  let b := Nat.xor a (a / 2 ^ 17)
  Nat.xor b ((b * 2 ^ 5) % 2 ^ 32)

/-- `(t < 0 ? ~t + 1 : t)`: the two's-complement magnitude of the signed
state, read off the bit pattern. -/
def magnitude (u : ℕ) : ℕ := if u < 2 ^ 31 then u else 2 ^ 32 - u

/-- The numerator of one draw: `(t < 0 ? ~t + 1 : t) % 2147483647`; the draw
value is this divided by 2147483647. -/
def drawNum (u : ℕ) : ℕ := magnitude u % 2147483647

/-- `let t = Math.floor(seed * 2147483647) || 1;` — seed normalization:
`0` (the only falsy integer) is replaced by `1`. -/
def normalizeSeed (seed : ℚ) : ℤ :=
  if jsFloor (seed * 2147483647) = 0 then 1 else jsFloor (seed * 2147483647)

/-- The initial 32-bit bit pattern of the RNG state built from a seed. -/
def rngInit (seed : ℚ) : ℕ := ((normalizeSeed seed) % 2 ^ 32).toNat

/-- One call of the returned closure: advance the state and produce the draw
in `[0,1)`.  Returns (draw, new state). -/
def next (u : ℕ) : ℚ × ℕ :=
  ((drawNum (xorshiftStep u) : ℚ) / 2147483647, xorshiftStep u)

/-- The RNG state after `n` calls of the closure built from `seed`. -/
def stateAt (seed : ℚ) (n : ℕ) : ℕ := xorshiftStep^[n] (rngInit seed)

/-- The value of the `n`-th draw (0-indexed) of the closure built from `seed`. -/
def drawQ (seed : ℚ) (n : ℕ) : ℚ := (drawNum (stateAt seed (n + 1)) : ℚ) / 2147483647

/-! ## Selector (`pick`, script.js lines 538–540) -/

/-- JavaScript `array[i]` for an integer index: `undefined` (here `none`)
when out of bounds, including negative indices. -/
def getAt {α : Type} (l : List α) (i : ℤ) : Option α :=
  if i < 0 then none else l[i.toNat]?

/-- `function pick(array, rng) { return array[Math.floor(rng() * array.length)]; }`
with the single consumed draw passed in as `r`. -/
def pick {α : Type} (l : List α) (r : ℚ) : Option α :=
  getAt l (jsFloor (r * l.length))

/-- `pick` together with its RNG threading: consumes exactly one draw. -/
def pickRng {α : Type} (l : List α) (u : ℕ) : Option α × ℕ :=
  let p := next u
  (pick l p.1, p.2)

/-! ## Fixed configuration constants (script.js lines 482–521) -/

/-- The five font family identifiers. -/
def fontFamilies : List String :=
  [ "\"Monoton\", cursive",
    "\"Bungee\", cursive",
    "\"Concert One\", sans-serif",
    "\"Orbitron\", sans-serif",
    "\"Press Start 2P\", cursive" ]

/-- A palette: a name and three ordered color lists. -/
structure Palette where
  name : String
  background : List String
  text : List String
  sparks : List String
  deriving DecidableEq, Repr

def aurora : Palette :=
  ⟨ "Aurora", ["#061728", "#0d2a3d", "#143f5d"],
    ["#00f5d4", "#00bbf9", "#fe53bb"], ["#ffbf69", "#f5f5f5"] ⟩

def neonSunset : Palette :=
  ⟨ "Neon Sunset", ["#1a0b2e", "#42047e", "#07f49e"],
    ["#ff61d2", "#fe9090", "#fecf33"], ["#ffffff", "#ffd6ff"] ⟩

def solarFlare : Palette :=
  ⟨ "Solar Flare", ["#160f30", "#472783", "#f88c24"],
    ["#ffe066", "#ff5f6d", "#ffc371"], ["#fff9c4", "#ffadad"] ⟩

def cyberDreams : Palette :=
  ⟨ "Cyber Dreams", ["#050505", "#09203f", "#1e3c72"],
    ["#a8ff78", "#78ffd6", "#00d4ff"], ["#ffffff", "#b3f8ff"] ⟩

def candyPulse : Palette :=
  ⟨ "Candy Pulse", ["#320d3e", "#641b4e", "#f55951"],
    ["#ff85a1", "#ffd4d4", "#ffe066"], ["#faf3dd", "#fcbf49"] ⟩

/-- The fixed finite palette list. -/
def palettes : List Palette :=
  [aurora, neonSunset, solarFlare, cyberDreams, candyPulse]

/-! ## The reified canvas command trace

Each constructor records every parameter the source computes for the
corresponding group of canvas calls; the string and numeric fields are
exactly the values interpolated into the 2D-context calls. -/

inductive Cmd where
  /-- `fitCanvas`: CSS size (rounded), backing-buffer scale transform. -/
  | fit (cssW cssH : ℤ) (ratio : ℚ)
  /-- base linear gradient fill over the whole canvas. -/
  | bgGradient (colors : List String) (w h : ℚ)
  /-- one radial glow blob: hue shift, alpha, radius, center. -/
  | blob (hue alpha radius x y : ℚ)
  /-- the full typography pass: text, font, size, tilt, shadow blur,
  outline width, emboss width, gradient stops, center translation
  `(width/2, height/2)`. -/
  | textLayer (text fontFamily : String)
      (size rotation shadowBlur outlineW embossW : ℚ) (colors : List String)
      (cx cy : ℚ)
  /-- one spark: position, radius, color, alpha. -/
  | spark (x y size : ℚ) (color : String) (alpha : ℚ)
  /-- one scanline: `fillRect(0, y, width, 1)`. -/
  | scanline (y w : ℚ)
  deriving DecidableEq, Repr

/-! ## Surface manager (`fitCanvas`, script.js lines 542–553) -/

/-- `fitCanvas(baseWidth, baseHeight)` with the device pixel ratio passed
explicitly. -/
def fitCanvas (baseW baseH ratio : ℚ) : Cmd :=
  Cmd.fit (jsRound baseW) (jsRound baseH) ratio

/-! ## Background layer (`paintBackground`, script.js lines 555–592) -/

/-- `const layers = 4 + Math.floor(rng() * 3);` -/
def layersOf (r : ℚ) : ℤ := 4 + jsFloor (r * 3)

/-- The glow-blob loop: each iteration draws, in order, hue shift, alpha,
radius, center x, center y. -/
def blobCmds (w h : ℚ) : ℕ → ℕ → List Cmd × ℕ
  | 0, u => ([], u)
  | n + 1, u =>
    let p1 := next u
    let p2 := next p1.2
    let p3 := next p2.2
    let p4 := next p3.2
    let p5 := next p4.2
    let hue := 20 + p1.1 * 80
    let alpha := 8 / 100 + p2.1 * (12 / 100)
    let radius := (min w h / 2) * (4 / 10 + p3.1 * (8 / 10))
    let x := w * (1 / 10 + p4.1 * (8 / 10))
    let y := h * (1 / 10 + p5.1 * (8 / 10))
    let rest := blobCmds w h n p5.2
    (Cmd.blob hue alpha radius x y :: rest.1, rest.2)

/-- `paintBackground(rng, palette, width, height)`: base gradient fill, then
the glow blobs. -/
def paintBackground (u : ℕ) (palette : Palette) (w h : ℚ) : List Cmd × ℕ :=
  let pl := next u
  let blobs := blobCmds w h (layersOf pl.1).toNat pl.2
  (Cmd.bgGradient palette.background w h :: blobs.1, blobs.2)

/-! ## Typography layer (`renderName`, script.js lines 594–637) -/

/-- `const baseSize = clamp(width / (trimmed.length * 0.7), 92, 210);` -/
def baseSizeOf (trimmedLen : ℕ) (w : ℚ) : ℚ :=
  clamp (w / ((trimmedLen : ℚ) * (7 / 10))) 92 210

/-- `renderName(name, rng, palette, width, height)`: trims the name, draws a
font, a tilt and a shadow blur, and emits the single typography pass. -/
def renderName (name : String) (u : ℕ) (palette : Palette) (w h : ℚ) :
    List Cmd × ℕ :=
  let trimmed := jsTrim name
  let pf := next u
  let fontFamily := (pick fontFamilies pf.1).getD ""
  let baseSize := baseSizeOf trimmed.length w
  let pr := next pf.2
  let rotation := (pr.1 - 1 / 2) * (5 / 100)
  let pb := next pr.2
  let shadowBlur := 35 + pb.1 * 25
  ([Cmd.textLayer trimmed fontFamily baseSize rotation shadowBlur
      (clamp (baseSize * (4 / 100)) 3 12)
      (clamp (baseSize * (15 / 1000)) (3 / 2) 6) palette.text
      (w / 2) (h / 2)], pb.2)

/-! ## Particle layer (`sprinkleSparks`, script.js lines 639–657) -/

/-- `const count = 64 + Math.floor(rng() * 86);` -/
def sparkCountOf (r : ℚ) : ℤ := 64 + jsFloor (r * 86)

/-- The spark loop: each iteration draws, in order, x, y, size, color
(via `pick`), alpha. -/
def sparkCmds (w h : ℚ) (colors : List String) : ℕ → ℕ → List Cmd × ℕ
  | 0, u => ([], u)
  | n + 1, u =>
    let p1 := next u
    let p2 := next p1.2
    let p3 := next p2.2
    let p4 := next p3.2
    let p5 := next p4.2
    let rest := sparkCmds w h colors n p5.2
    (Cmd.spark (p1.1 * w) (p2.1 * h) (1 / 2 + p3.1 * (28 / 10))
        ((pick colors p4.1).getD "") (4 / 10 + p5.1 * (6 / 10)) :: rest.1,
      rest.2)

/-- `sprinkleSparks(rng, palette, width, height)`. -/
def sprinkleSparks (u : ℕ) (palette : Palette) (w h : ℚ) : List Cmd × ℕ :=
  let pc := next u
  sparkCmds w h palette.sparks (sparkCountOf pc.1).toNat pc.2

/-! ## Texture overlay (`drawScanlines`, script.js lines 659–670) -/

/-- `for (let y = 0; y < height; y += 3) fillRect(0, y, width, 1)`:
the loop body runs for `y = 3k` with `3k < height`, i.e. `⌈height/3⌉` times
for nonnegative heights. -/
def drawScanlines (w h : ℚ) : List Cmd :=
  (List.range ⌈h / 3⌉₊).map fun k => Cmd.scanline (3 * (k : ℚ)) w

/-! ## Orchestrator (`forgeNameArt`, script.js lines 672–692) -/

/-- The fallback substitution at the top of `forgeNameArt`:
`if (!name.trim()) name = 'Nameless Wonder';` -/
def displayName (name0 : String) : String :=
  if jsTrim name0 = "" then "Nameless Wonder" else name0

/-- `const baseWidth = clamp(name.length * 120, 720, 1180);` -/
def baseWidthOf (name : String) : ℚ :=
  clamp ((name.length : ℚ) * 120) 720 1180

/-- `const baseHeight = clamp(baseWidth * 0.48, 320, 520);` -/
def baseHeightOf (name : String) : ℚ :=
  clamp (baseWidthOf name * (48 / 100)) 320 520

/-- The result of one render: the full command trace and the stored
last-used pair. -/
structure ForgeResult where
  cmds : List Cmd
  lastName : String
  lastSeed : ℚ
  deriving DecidableEq, Repr

/-- `const palette = pick(palettes, rng);` — the first draw of the render. -/
def forgePalette (u0 : ℕ) : Palette := (pick palettes (next u0).1).getD aurora

/-- The background pass of one render (commands and RNG state after it). -/
def forgeBg (name : String) (u0 : ℕ) : List Cmd × ℕ :=
  paintBackground (next u0).2 (forgePalette u0) (baseWidthOf name) (baseHeightOf name)

/-- The typography pass of one render. -/
def forgeTxt (name : String) (u0 : ℕ) : List Cmd × ℕ :=
  renderName name (forgeBg name u0).2 (forgePalette u0)
    (baseWidthOf name) (baseHeightOf name)

/-- The particle pass of one render. -/
def forgeSp (name : String) (u0 : ℕ) : List Cmd × ℕ :=
  sprinkleSparks (forgeTxt name u0).2 (forgePalette u0)
    (baseWidthOf name) (baseHeightOf name)

/-- The command trace of one render as a function of the substituted name,
the initial RNG state and the device pixel ratio: pick the palette, compute
the layout, fit the canvas and paint the four layers in fixed order
(Background, Typography, Particle, Texture) off the single RNG stream
threaded through `forgeBg` → `forgeTxt` → `forgeSp`. -/
def forgeCmds (name : String) (u0 : ℕ) (dpr : ℚ) : List Cmd :=
  fitCanvas (baseWidthOf name) (baseHeightOf name) dpr ::
    ((forgeBg name u0).1 ++ (forgeTxt name u0).1 ++ (forgeSp name u0).1 ++
      drawScanlines (baseWidthOf name) (baseHeightOf name))

/-- The body of `forgeNameArt` after the fallback substitution: stores the
pair, builds the RNG from the seed and renders. -/
def forgeCore (name : String) (seed dpr : ℚ) : ForgeResult :=
  { cmds := forgeCmds name (rngInit seed) dpr,
    lastName := name,
    lastSeed := seed }

/-- `forgeNameArt(name, seed)` with the device pixel ratio made explicit. -/
def forgeNameArt (name0 : String) (seed dpr : ℚ) : ForgeResult :=
  forgeCore (displayName name0) seed dpr

/-! ## Download file name (`handleDownload`, script.js lines 705–711) -/

/-- `/[^a-z0-9]+/gi` character class: ASCII letters (either case, via the
`i` flag) and digits. -/
def isAlnumJS (c : Char) : Bool :=
  ('a' ≤ c && c ≤ 'z') || ('A' ≤ c && c ≤ 'Z') || ('0' ≤ c && c ≤ '9')

/-- `.replace(/[^a-z0-9]+/gi, '-')`: each maximal run of non-alphanumeric
characters becomes a single hyphen.  The flag tracks whether the previous
character was part of such a run. -/
def collapseNonAlnum : Bool → List Char → List Char
  | _, [] => []
  | inRun, c :: rest =>
    if isAlnumJS c then c :: collapseNonAlnum false rest
    else if inRun then collapseNonAlnum true rest
    else '-' :: collapseNonAlnum true rest

/-- `.replace(/\-+/g, '-')`: each maximal run of hyphens becomes a single
hyphen. -/
def collapseHyphens : Bool → List Char → List Char
  | _, [] => []
  | inRun, c :: rest =>
    if c = '-' then
      if inRun then collapseHyphens true rest
      else '-' :: collapseHyphens true rest
    else c :: collapseHyphens false rest

/-- `const safeName = lastName.trim().replace(/[^a-z0-9]+/gi, '-').replace(/\-+/g, '-');` -/
def safeName (lastName : String) : String :=
  String.mk (collapseHyphens false (collapseNonAlnum false (jsTrim lastName).toList))

/-- `` link.download = `${safeName || 'name-art'}.png`; `` — the base name
(without the `.png` extension); the empty string is the only falsy string. -/
def downloadBase (lastName : String) : String :=
  if safeName lastName = "" then "name-art" else safeName lastName

/-! ## Orchestrator state machine (last-used pair, handlers, resize) -/

/-- The process-wide mutable state: `let lastName`, `let lastSeed`
(script.js lines 523–524). -/
structure AppState where
  lastName : String
  lastSeed : ℚ
  deriving DecidableEq, Repr

/-- The state update performed by `forgeNameArt`: store the (possibly
fallback-substituted) name and the seed. -/
def forgeUpd (name : String) (seed : ℚ) : AppState :=
  ⟨displayName name, seed⟩

/-- The user-visible events that reach `forgeNameArt`.  `forge` carries the
submitted name and the fresh `Math.random()` seed; `shuffle` carries only a
fresh seed; `resize` is the debounced trailing callback (the timer argument
is irrelevant to the stored pair, so the burst structure is abstracted to
the single surviving callback). -/
inductive Event where
  | forge (name : String) (seed : ℚ)
  | shuffle (seed : ℚ)
  | resize
  deriving DecidableEq, Repr

/-- One event-handler step of the orchestrator
(`handleForge` / `handleShuffle` / `handleResize`). -/
def step (s : AppState) : Event → AppState
  | .forge name seed => forgeUpd name seed
  | .shuffle seed => forgeUpd s.lastName seed
  | .resize => forgeUpd s.lastName s.lastSeed

/-- The startup state: `lastName = 'Ada Lovelace'`, a random `lastSeed`,
followed by the initial `forgeNameArt(lastName, lastSeed)` call
(script.js lines 523–524 and 729). -/
def initState (seed0 : ℚ) : AppState :=
  forgeUpd (AppState.lastName ⟨"Ada Lovelace", seed0⟩) seed0

/-- Run a sequence of events from a state. -/
def run (s : AppState) : List Event → AppState
  | [] => s
  | e :: es => run (step s e) es

end NameArt

namespace NameArt

/-! ## Basic facts about the RNG -/

theorem drawNum_lt (u : ℕ) : drawNum u < 2147483647 :=
  Nat.mod_lt _ (by norm_num)

theorem drawQ_nonneg (seed : ℚ) (n : ℕ) : 0 ≤ drawQ seed n := by
  unfold drawQ
  positivity

theorem drawQ_lt_one (seed : ℚ) (n : ℕ) : drawQ seed n < 1 := by
  unfold drawQ
  rw [div_lt_one (by norm_num)]
  exact_mod_cast drawNum_lt _

theorem next_fst_nonneg (u : ℕ) : 0 ≤ (next u).1 := by
  unfold next
  positivity

theorem next_fst_lt_one (u : ℕ) : (next u).1 < 1 := by
  unfold next
  simp only
  rw [div_lt_one (by norm_num)]
  exact_mod_cast drawNum_lt _

/-! ## Helper lemmas -/

theorem le_clamp (v lo hi : ℚ) : lo ≤ clamp v lo hi := le_max_left _ _

theorem clamp_le {lo hi : ℚ} (v : ℚ) (h : lo ≤ hi) : clamp v lo hi ≤ hi :=
  max_le h (min_le_left _ _)

theorem blobCmds_length (w h : ℚ) (n u : ℕ) : (blobCmds w h n u).1.length = n := by
  induction n generalizing u with
  | zero => rfl
  | succ n ih => simp [blobCmds, ih]

theorem sparkCmds_length (w h : ℚ) (colors : List String) (n u : ℕ) :
    (sparkCmds w h colors n u).1.length = n := by
  induction n generalizing u with
  | zero => rfl
  | succ n ih => simp [sparkCmds, ih]

theorem jsTrim_displayName_ne (n : String) : jsTrim (displayName n) ≠ "" := by
  unfold displayName
  split
  · decide
  · assumption

theorem forgeCore_lastName (n : String) (s d : ℚ) :
    (forgeCore n s d).lastName = n := rfl

theorem floor_mul_bounds {r : ℚ} {k : ℕ} (hk : 0 < k) (h0 : 0 ≤ r) (h1 : r < 1) :
    0 ≤ jsFloor (r * k) ∧ jsFloor (r * k) < k := by
  constructor
  · exact Int.floor_nonneg.mpr (by positivity)
  · exact Int.floor_lt.mpr (by
      calc r * k < 1 * k := mul_lt_mul_of_pos_right h1 (by exact_mod_cast hk)
        _ = (k : ℚ) := one_mul _)

/-! ## Claim theorems -/

/-- Claim C1: two invocations of `forgeNameArt` with identical Render State
(name, seed, device pixel ratio — surface size is derived from the name)
issue identical drawing-command sequences; the trace is the fixed-order
concatenation of the canvas fit and the four layers, all fed from the single
RNG stream initialized from the seed. -/
theorem forge_deterministic (n1 n2 : String) (s1 s2 d1 d2 : ℚ)
    (hn : n1 = n2) (hs : s1 = s2) (hd : d1 = d2) :
    forgeNameArt n1 s1 d1 = forgeNameArt n2 s2 d2 ∧
    (forgeNameArt n1 s1 d1).cmds = (forgeNameArt n2 s2 d2).cmds ∧
    (forgeNameArt n1 s1 d1).cmds = forgeCmds (displayName n1) (rngInit s1) d1 := by
  subst hn hs hd
  exact ⟨rfl, rfl, rfl⟩

/-- Witness for C1 at the concrete Render State ("Ada", 1/2, dpr 1); the two
seed expressions are syntactically distinct but equal rationals. -/
theorem forge_deterministic_w :
    forgeNameArt "Ada" (1/2) 1 = forgeNameArt "Ada" (2/4) 1 ∧
    (forgeNameArt "Ada" (1/2) 1).cmds = (forgeNameArt "Ada" (2/4) 1).cmds ∧
    (forgeNameArt "Ada" (1/2) 1).cmds = forgeCmds (displayName "Ada") (rngInit (1/2)) 1 :=
  forge_deterministic "Ada" "Ada" (1/2) (2/4) 1 1 rfl (by norm_num) rfl

/-- Claim C3: the RNG starts from `floor(seed * 2147483647)` (replaced by 1
when zero), each call applies one xorshift update to the previous state,
the draw is the two's-complement magnitude reduced mod 2147483647 and
divided by 2147483647, every draw lies in `[0,1)`, and equal seeds give
identical draw sequences. -/
theorem rngFromSeed_spec (seed : ℚ) (n : ℕ) :
    rngInit seed =
      ((if jsFloor (seed * 2147483647) = 0 then 1
        else jsFloor (seed * 2147483647)) % 2 ^ 32).toNat ∧
    stateAt seed (n + 1) = xorshiftStep (stateAt seed n) ∧
    drawQ seed n = ((magnitude (stateAt seed (n + 1)) % 2147483647 : ℕ) : ℚ) / 2147483647 ∧
    (0 ≤ drawQ seed n ∧ drawQ seed n < 1) ∧
    (∀ s2 : ℚ, seed = s2 → drawQ seed n = drawQ s2 n) := by
  refine ⟨rfl, ?_, rfl, ⟨drawQ_nonneg seed n, drawQ_lt_one seed n⟩, ?_⟩
  · unfold stateAt
    exact Function.iterate_succ_apply' _ _ _
  · intro s2 h
    rw [h]

/-- Witness for C3 at seed 1/2, draw 0, with the determinism hypothesis
discharged at the equal seed 2/4. -/
theorem rngFromSeed_spec_w :
    (0 ≤ drawQ (1/2) 0 ∧ drawQ (1/2) 0 < 1) ∧ drawQ (1/2) 0 = drawQ (2/4) 0 :=
  ⟨(rngFromSeed_spec (1/2) 0).2.2.2.1,
    (rngFromSeed_spec (1/2) 0).2.2.2.2 (2/4) (by norm_num)⟩

/-- Claim C4: for a name whose trim is empty, `forgeNameArt` silently
substitutes the fallback name "Nameless Wonder" before deriving any render
state: the stored last-used name is the fallback, and the whole render
(trace included) coincides with a render of the fallback name. -/
theorem forge_fallback (name : String) (s d : ℚ) (h : jsTrim name = "") :
    (forgeNameArt name s d).lastName = "Nameless Wonder" ∧
    forgeNameArt name s d = forgeNameArt "Nameless Wonder" s d := by
  have h1 : displayName name = "Nameless Wonder" := by simp [displayName, h]
  have h2 : displayName "Nameless Wonder" = "Nameless Wonder" := by
    unfold displayName
    rw [if_neg (by decide)]
  constructor
  · show (forgeCore (displayName name) s d).lastName = _
    rw [forgeCore_lastName, h1]
  · unfold forgeNameArt
    rw [h1, h2]

/-- Witness for C4 at the whitespace-only name "   " with seed 1 and dpr 1. -/
theorem forge_fallback_w :
    (forgeNameArt "   " 1 1).lastName = "Nameless Wonder" ∧
    forgeNameArt "   " 1 1 = forgeNameArt "Nameless Wonder" 1 1 :=
  forge_fallback "   " 1 1 (by decide)

/-- Claim C6: for a non-empty list and a draw in `[0,1)`, `pick` computes
index `floor(r * length)`, that index is in bounds, the result is `some` of
the element there (hence a member of the list), and the RNG-threaded form
consumes exactly one draw. -/
theorem pick_spec {α : Type} (l : List α) (r : ℚ) (hne : l ≠ [])
    (h0 : 0 ≤ r) (h1 : r < 1) :
    (∃ hlt : (jsFloor (r * l.length)).toNat < l.length,
      pick l r = some (l.get ⟨(jsFloor (r * l.length)).toNat, hlt⟩)) ∧
    (∀ a, pick l r = some a → a ∈ l) ∧
    (∀ u : ℕ, (pickRng l u).2 = xorshiftStep u) := by
  have hk : 0 < l.length := List.length_pos.mpr hne
  obtain ⟨hge, hlt⟩ := floor_mul_bounds hk h0 h1
  have hlt' : (jsFloor (r * l.length)).toNat < l.length := by omega
  have hp : pick l r = some (l.get ⟨(jsFloor (r * l.length)).toNat, hlt'⟩) := by
    unfold pick getAt
    rw [if_neg (by omega)]
    rw [List.getElem?_eq_getElem hlt']
    simp [List.get_eq_getElem]
  refine ⟨⟨hlt', hp⟩, ?_, fun u => rfl⟩
  intro a ha
  rw [hp] at ha
  obtain rfl : l.get ⟨(jsFloor (r * l.length)).toNat, hlt'⟩ = a := by
    exact Option.some_injective _ ha
  exact List.get_mem l _ _

/-- Witness for C6 on the list `[10, 20, 30]` with draw 1/2:
index `floor(3/2) = 1`, element 20. -/
theorem pick_spec_w :
    pick ([10, 20, 30] : List ℕ) (1/2) = some 20 ∧
    (∀ a, pick ([10, 20, 30] : List ℕ) (1/2) = some a → a ∈ [10, 20, 30]) := by
  obtain ⟨⟨hlt, hp⟩, hmem, _⟩ :=
    pick_spec ([10, 20, 30] : List ℕ) (1/2) (by decide) (by norm_num) (by norm_num)
  refine ⟨?_, hmem⟩
  rw [hp]
  norm_num [jsFloor]

/-- Claim C5: from the startup state, after any sequence of forge / shuffle /
resize events, the resize handler re-invokes forge with the stored last-used
name and seed (by definition of `step`), and doing so leaves the stored
(name, seed) pair unchanged — a resize never changes the artwork's identity. -/
theorem resize_stable (seed0 : ℚ) (evs : List Event) :
    (∀ s : AppState, step s Event.resize = forgeUpd s.lastName s.lastSeed) ∧
    step (run (initState seed0) evs) Event.resize = run (initState seed0) evs := by
  refine ⟨fun s => rfl, ?_⟩
  have key : ∀ (s : AppState), jsTrim s.lastName ≠ "" →
      step s Event.resize = s := by
    intro s hs
    show forgeUpd s.lastName s.lastSeed = s
    unfold forgeUpd displayName
    rw [if_neg hs]
  have inv : ∀ (evs' : List Event) (s : AppState), jsTrim s.lastName ≠ "" →
      jsTrim (run s evs').lastName ≠ "" := by
    intro evs'
    induction evs' with
    | nil => intro s hs; exact hs
    | cons e es ih =>
      intro s _
      refine ih (step s e) ?_
      cases e with
      | forge n sd => exact jsTrim_displayName_ne n
      | shuffle sd => exact jsTrim_displayName_ne _
      | resize => exact jsTrim_displayName_ne _
  exact key _ (inv evs (initState seed0) (jsTrim_displayName_ne _))

/-- Claim C7: the glow-blob count drawn by `paintBackground` is
`4 + floor(r*3)` for its first draw `r` and lies in `[4,6]` (the trace holds
one base-gradient command plus that many blob commands), and the spark count
drawn by `sprinkleSparks` is `64 + floor(r*86)` and lies in `[64,150)`. -/
theorem layer_counts_spec (u v : ℕ) (p : Palette) (w h : ℚ) :
    ((paintBackground u p w h).1.length = 1 + (layersOf (next u).1).toNat ∧
      4 ≤ layersOf (next u).1 ∧ layersOf (next u).1 ≤ 6) ∧
    ((sprinkleSparks v p w h).1.length = (sparkCountOf (next v).1).toNat ∧
      64 ≤ sparkCountOf (next v).1 ∧ sparkCountOf (next v).1 < 150) := by
  obtain ⟨hb0, hb1⟩ :=
    floor_mul_bounds (r := (next u).1) (k := 3) (by norm_num)
      (next_fst_nonneg u) (next_fst_lt_one u)
  obtain ⟨hs0, hs1⟩ :=
    floor_mul_bounds (r := (next v).1) (k := 86) (by norm_num)
      (next_fst_nonneg v) (next_fst_lt_one v)
  norm_num at hb0 hb1 hs0 hs1
  refine ⟨⟨?_, ?_, ?_⟩, ⟨?_, ?_, ?_⟩⟩
  · show (Cmd.bgGradient p.background w h :: (blobCmds w h _ _).1).length = _
    simp [blobCmds_length, Nat.add_comm]
  · unfold layersOf
    omega
  · unfold layersOf
    omega
  · show (sparkCmds w h p.sparks _ _).1.length = _
    exact sparkCmds_length _ _ _ _ _
  · unfold sparkCountOf
    omega
  · unfold sparkCountOf
    omega

/-- Claim C8: for every name, the logical surface width is
`clamp(length*120, 720, 1180)` and so lies in `[720, 1180]`; the height is
`clamp(width*0.48, 320, 520)` and so lies in `[345.6, 520]`; and the render
trace starts with the canvas fit at exactly these dimensions for the
(fallback-substituted) name. -/
theorem layout_spec (name : String) :
    baseWidthOf name = clamp ((name.length : ℚ) * 120) 720 1180 ∧
    baseHeightOf name = clamp (baseWidthOf name * (48/100)) 320 520 ∧
    (720 ≤ baseWidthOf name ∧ baseWidthOf name ≤ 1180) ∧
    (1728/5 ≤ baseHeightOf name ∧ baseHeightOf name ≤ 520) ∧
    (∀ s d : ℚ, ∃ rest, (forgeNameArt name s d).cmds =
      fitCanvas (baseWidthOf (displayName name)) (baseHeightOf (displayName name)) d :: rest) := by
  have hw1 : 720 ≤ baseWidthOf name := le_clamp _ _ _
  have hw2 : baseWidthOf name ≤ 1180 := clamp_le _ (by norm_num)
  refine ⟨rfl, rfl, ⟨hw1, hw2⟩, ⟨?_, clamp_le _ (by norm_num)⟩, ?_⟩
  · unfold baseHeightOf clamp
    refine le_trans (le_min (by norm_num) ?_) (le_max_right _ _)
    nlinarith
  · intro s d
    exact ⟨_, rfl⟩

/-- Claim C10: seed normalization is not injective — seeds with equal
normalized state produce identical draw sequences and identical command
traces for every name, and the whole interval `[0, 2/2147483647)` (seed 0
included) normalizes to state 1. -/
theorem seed_collapse (s1 s2 : ℚ) (h : normalizeSeed s1 = normalizeSeed s2) :
    (∀ n, drawQ s1 n = drawQ s2 n) ∧
    (∀ (name : String) (d : ℚ),
      (forgeNameArt name s1 d).cmds = (forgeNameArt name s2 d).cmds) ∧
    (∀ s : ℚ, 0 ≤ s → s < 2/2147483647 → normalizeSeed s = 1) := by
  have hinit : rngInit s1 = rngInit s2 := by
    unfold rngInit
    rw [h]
  refine ⟨?_, ?_, ?_⟩
  · intro n
    unfold drawQ stateAt
    rw [hinit]
  · intro name d
    show forgeCmds _ (rngInit s1) d = forgeCmds _ (rngInit s2) d
    rw [hinit]
  · intro s hs0 hs2
    have h0 : 0 ≤ jsFloor (s * 2147483647) :=
      Int.floor_nonneg.mpr (by positivity)
    have h2 : jsFloor (s * 2147483647) < 2 := by
      apply Int.floor_lt.mpr
      push_cast
      nlinarith
    unfold normalizeSeed
    rcases (by omega : jsFloor (s * 2147483647) = 0 ∨ jsFloor (s * 2147483647) = 1) with
      h | h
    · rw [if_pos h]
    · rw [if_neg (by omega), h]

/-- Witness for C10: seed 0 and seed 1/2147483647 normalize to the same
state, so their first draws coincide; seed 0 normalizes to 1. -/
theorem seed_collapse_w :
    drawQ 0 0 = drawQ (1/2147483647) 0 ∧
    (forgeNameArt "Ada" 0 1).cmds = (forgeNameArt "Ada" (1/2147483647) 1).cmds ∧
    normalizeSeed 0 = 1 := by
  have h : normalizeSeed 0 = normalizeSeed (1/2147483647) := by
    norm_num [normalizeSeed, jsFloor]
  exact ⟨(seed_collapse 0 (1/2147483647) h).1 0,
    (seed_collapse 0 (1/2147483647) h).2.1 "Ada" 1,
    (seed_collapse 0 (1/2147483647) h).2.2 0 le_rfl (by norm_num)⟩

/-! ## Structure of the sanitized file name -/

theorem collapseNonAlnum_chars (l : List Char) : ∀ (b : Bool),
    ∀ c ∈ collapseNonAlnum b l, isAlnumJS c = true ∨ c = '-' := by
  induction l with
  | nil => intro b c hc; simp [collapseNonAlnum] at hc
  | cons a rest ih =>
    intro b c hc
    unfold collapseNonAlnum at hc
    by_cases ha : isAlnumJS a
    · rw [if_pos ha] at hc
      rcases List.mem_cons.mp hc with rfl | hc
      · exact Or.inl ha
      · exact ih false c hc
    · rw [if_neg ha] at hc
      cases b with
      | true => exact ih true c hc
      | false =>
        simp only [Bool.false_eq_true, if_false] at hc
        rcases List.mem_cons.mp hc with rfl | hc
        · exact Or.inr rfl
        · exact ih true c hc

theorem collapseHyphens_chars (l : List Char)
    (H : ∀ c ∈ l, isAlnumJS c = true ∨ c = '-') : ∀ (b : Bool),
    ∀ c ∈ collapseHyphens b l, isAlnumJS c = true ∨ c = '-' := by
  induction l with
  | nil => intro b c hc; simp [collapseHyphens] at hc
  | cons a rest ih =>
    intro b c hc
    have Hrest : ∀ c ∈ rest, isAlnumJS c = true ∨ c = '-' :=
      fun c hc => H c (List.mem_cons_of_mem a hc)
    unfold collapseHyphens at hc
    by_cases ha : a = '-'
    · rw [if_pos ha] at hc
      cases b with
      | true => exact ih Hrest true c hc
      | false =>
        simp only [Bool.false_eq_true, if_false] at hc
        rcases List.mem_cons.mp hc with rfl | hc
        · exact Or.inr rfl
        · exact ih Hrest true c hc
    · rw [if_neg ha] at hc
      rcases List.mem_cons.mp hc with rfl | hc
      · exact H c (List.mem_cons_self _ _)
      · exact ih Hrest false c hc

theorem collapseHyphens_head_ne (l : List Char) :
    (collapseHyphens true l).head? ≠ some '-' := by
  induction l with
  | nil => simp [collapseHyphens]
  | cons a rest ih =>
    unfold collapseHyphens
    by_cases ha : a = '-'
    · rw [if_pos ha]
      exact ih
    · rw [if_neg ha]
      simpa using ha

theorem collapseHyphens_no_adjacent (l : List Char) : ∀ (b : Bool),
    List.Chain' (fun x y => ¬(x = '-' ∧ y = '-')) (collapseHyphens b l) := by
  induction l with
  | nil => intro b; simp [collapseHyphens]
  | cons a rest ih =>
    intro b
    unfold collapseHyphens
    by_cases ha : a = '-'
    · rw [if_pos ha]
      cases b with
      | true => exact ih true
      | false =>
        simp only [Bool.false_eq_true, if_false]
        rw [List.chain'_cons']
        refine ⟨?_, ih true⟩
        intro y hy hcontra
        exact collapseHyphens_head_ne rest (by rw [hy, hcontra.2])
    · rw [if_neg ha]
      rw [List.chain'_cons']
      refine ⟨?_, ih false⟩
      intro y hy hcontra
      exact ha hcontra.1

/-- Claim C2 counterexample: the code neither lower-cases the name nor trims
leading/trailing hyphens, so the export base name for last name
"Ada Lovelace!!" is "Ada-Lovelace-", not "ada-lovelace". -/
theorem download_base_counterexample :
    downloadBase "Ada Lovelace!!" = "Ada-Lovelace-" ∧
    downloadBase "Ada Lovelace!!" ≠ "ada-lovelace" := by constructor <;> decide

/-- Claim C2 as amended: the export base name is the trimmed last-used name
with every maximal run of non-alphanumeric characters replaced by one hyphen
(letter case preserved, boundary hyphens kept), falling back to "name-art"
when the result is empty; every character of the sanitized name is
alphanumeric or a hyphen and no two hyphens are adjacent; the name
"Ada Lovelace!!" yields base name "Ada-Lovelace-". -/
theorem download_base_amended :
    (∀ s : String, downloadBase s ≠ "") ∧
    (∀ (s : String) (c : Char), c ∈ (safeName s).toList →
      isAlnumJS c = true ∨ c = '-') ∧
    (∀ s : String, List.Chain' (fun x y => ¬(x = '-' ∧ y = '-'))
      (safeName s).toList) ∧
    downloadBase "Ada Lovelace!!" = "Ada-Lovelace-" ∧
    downloadBase "" = "name-art" := by
  refine ⟨?_, ?_, ?_, by decide, by decide⟩
  · intro s
    unfold downloadBase
    split
    · decide
    · assumption
  · intro s c hc
    exact collapseHyphens_chars _ (collapseNonAlnum_chars _ false) false c hc
  · intro s
    exact collapseHyphens_no_adjacent _ false

/-- Witness for the amended C2 at the concrete name "Ada Lovelace!!": the
base name is "Ada-Lovelace-", it is nonempty, and its first character is
alphanumeric. -/
theorem download_base_amended_w :
    downloadBase "Ada Lovelace!!" = "Ada-Lovelace-" ∧
    downloadBase "Ada Lovelace!!" ≠ "" ∧
    (isAlnumJS 'A' = true ∨ 'A' = '-') :=
  ⟨download_base_amended.2.2.2.1,
    download_base_amended.1 "Ada Lovelace!!",
    download_base_amended.2.1 "Ada Lovelace!!" 'A' (by decide)⟩

/-- Claim C9: for a name with nonempty trim, forge stores the caller's name
untrimmed, the surface width is computed from the untrimmed name's length,
and the typography pass in the trace paints the trimmed name with a font
size computed from the trimmed length. -/
theorem forge_untrimmed (name : String) (s d : ℚ) (h : jsTrim name ≠ "") :
    (forgeNameArt name s d).lastName = name ∧
    baseWidthOf name = clamp ((name.length : ℚ) * 120) 720 1180 ∧
    (∃ pre font rot blur colors post, (forgeNameArt name s d).cmds =
      pre ++ Cmd.textLayer (jsTrim name) font
          (baseSizeOf (jsTrim name).length (baseWidthOf name)) rot blur
          (clamp (baseSizeOf (jsTrim name).length (baseWidthOf name) * (4/100)) 3 12)
          (clamp (baseSizeOf (jsTrim name).length (baseWidthOf name) * (15/1000)) (3/2) 6)
          colors (baseWidthOf name / 2) (baseHeightOf name / 2) :: post) := by
  have hdn : displayName name = name := by
    unfold displayName
    rw [if_neg h]
  refine ⟨?_, rfl, ?_⟩
  · show (forgeCore (displayName name) s d).lastName = name
    rw [forgeCore_lastName, hdn]
  · unfold forgeNameArt
    rw [hdn]
    refine ⟨fitCanvas (baseWidthOf name) (baseHeightOf name) d ::
        (forgeBg name (rngInit s)).1,
      (pick fontFamilies (next (forgeBg name (rngInit s)).2).1).getD "",
      ((next (next (forgeBg name (rngInit s)).2).2).1 - 1/2) * (5/100),
      35 + (next (next (next (forgeBg name (rngInit s)).2).2).2).1 * 25,
      (forgePalette (rngInit s)).text,
      (forgeSp name (rngInit s)).1 ++
        drawScanlines (baseWidthOf name) (baseHeightOf name),
      ?_⟩
    show forgeCmds name (rngInit s) d = _
    unfold forgeCmds forgeTxt renderName
    simp

/-- Witness for C9 at the name "  Nova  " (length 8, trimmed length 4). -/
theorem forge_untrimmed_w :
    ((forgeNameArt "  Nova  " 1 1).lastName = "  Nova  " ∧
      baseWidthOf "  Nova  " = clamp (("  Nova  ".length : ℚ) * 120) 720 1180 ∧
      (∃ pre font rot blur colors post, (forgeNameArt "  Nova  " 1 1).cmds =
        pre ++ Cmd.textLayer (jsTrim "  Nova  ") font
            (baseSizeOf (jsTrim "  Nova  ").length (baseWidthOf "  Nova  ")) rot blur
            (clamp (baseSizeOf (jsTrim "  Nova  ").length (baseWidthOf "  Nova  ") * (4/100)) 3 12)
            (clamp (baseSizeOf (jsTrim "  Nova  ").length (baseWidthOf "  Nova  ") * (15/1000)) (3/2) 6)
            colors (baseWidthOf "  Nova  " / 2) (baseHeightOf "  Nova  " / 2) :: post)) ∧
    "  Nova  ".length = 8 ∧ (jsTrim "  Nova  ").length = 4 :=
  ⟨forge_untrimmed "  Nova  " 1 1 (by decide), by decide, by decide⟩

end NameArt
